import Mathlib

/-!
Verification of the instascan scanner core.

This file is a shallow embedding, in Lean 4, of the QR-scanner core of the
`rumsan/instascan` repository:

* `src/gulpfile.js` (second, concatenated source section): the classes
  `ActiveScan`, `Analyzer` and `Scanner`.  `Scanner` is built on the
  `javascript-state-machine` v2 library (`StateMachine.create`, with async
  transitions via `StateMachine.ASYNC`, `fsm.transition()` and
  `fsm.transition.cancel()`); the relevant v2 semantics of that external
  dependency (event dispatch order, `can` returning false while a transition
  is pending, and the default error handler throwing when an event is fired
  while a previous async transition has not completed) are inlined into the
  scanner step functions below, specialized to the concrete machine that the
  scanner configures.
* `src/unnamed/part_000`: the `Camera` class (`camera.js`).

Modelling conventions:

* JavaScript objects become Lean structures; `null`/`undefined` fields become
  `Option`.
* Asynchrony is serialized: the browser's callbacks (camera-acquisition
  result, `requestAnimationFrame` ticks, `setTimeout` timers, deferred
  emissions, visibility notifications) are explicit environment commands.
  Pending timers / queued emissions are recorded in the state so that
  "was it cancelled" and "does it still fire" are expressible.
* Event emission (`EventEmitter.emit`) is recorded in an event log, most
  recent event first.
* External collaborators (getUserMedia streams, the ZXing decoder, the
  canvas) are opaque: their outcomes are parameters of the step functions,
  and the calls made into them (camera `start`/`stop`, decoder invocation)
  are recorded in the state or returned as flags.
-/

set_option linter.unusedVariables false

/-! ### Camera (src/unnamed/part_000)

`Camera` holds an optional `MediaStream`; the stream is modelled by the list
of (ids of) its video tracks.  `stop()` is `camera.js` lines 47-57: if no
stream is held it returns at once; otherwise it calls `.stop()` on every
video track of the stream (recorded in the `stoppedTracks` effect log) and
clears the stream reference. -/

structure CameraS where
  id : Nat
  name : String
  stream : Option (List Nat)
  stoppedTracks : List Nat
deriving DecidableEq, Repr

def cameraStop (c : CameraS) : CameraS :=
  match c.stream with
  | none => c
  | some ts => { c with stream := none, stoppedTracks := c.stoppedTracks ++ ts }

/-! ### Analyzer (src/gulpfile.js scanner section, lines 91-160)

`Analyzer.analyze(callback)` works on a `<video>` element.  The video's
current frame dimensions are passed as arguments (`videoWidth`,
`videoHeight`); the outcome of the ZXing decoder call, when it is reached,
is the `dec` argument (`none` models `_decode_qr` returning a nonzero error
code, `some r` models success with `window.zxDecodeResult = r`).  The result
triple is (new analyzer state, whether the pixel-extraction/decoder section
was reached, the argument passed to the callback if it was invoked).
`imageBuffer` stores the dimensions handed to `ZXing._resize`; the sensor
offsets are computed with exact rational arithmetic, faithful to the
JavaScript float expressions (halves and their differences are exact in
IEEE doubles). -/

structure AnalyzerS where
  imageBuffer : Option (Nat × Nat)
  sensorLeft : Option Int
  sensorTop : Option Int
  sensorWidth : Option Nat
  sensorHeight : Option Nat
  canvasWidth : Option Nat
  canvasHeight : Option Nat
deriving DecidableEq, Repr

def initAnalyzer : AnalyzerS :=
  { imageBuffer := none, sensorLeft := none, sensorTop := none,
    sensorWidth := none, sensorHeight := none,
    canvasWidth := none, canvasHeight := none }

def analyze (videoWidth videoHeight : Nat) (dec : Option String) (s : AnalyzerS) :
    AnalyzerS × Bool × Option String :=
  if videoWidth = 0 then
    (s, false, none)
  else
    match s.imageBuffer with
    | none =>
      ({ imageBuffer := some (videoWidth, videoHeight),
         sensorLeft := some (Int.floor ((videoWidth : ℚ) / 2 - (videoWidth : ℚ) / 2)),
         sensorTop := some (Int.floor ((videoHeight : ℚ) / 2 - (videoHeight : ℚ) / 2)),
         sensorWidth := some videoWidth,
         sensorHeight := some videoHeight,
         canvasWidth := some videoWidth,
         canvasHeight := some videoHeight }, false, none)
    | some _ =>
      (s, true, dec)

/-! ### ActiveScan (src/gulpfile.js scanner section, lines 38-89)

The `ActiveScan` frame loop.  Its JavaScript state is the `active` flag, the
configured `scanPeriod` / `refractoryPeriod` / `captureImage`, the running
`frameCount`, `lastResult`, and the pending `refractoryTimeout`.  Pending
browser callbacks are made explicit:

* `refractory = some e` records a pending `setTimeout` scheduled to clear
  `lastResult` at absolute time `e` (cleared by `clearTimeout`, i.e. by
  overwriting, never by `stop()`);
* `tickRequested` records an outstanding `requestAnimationFrame` request;
* `queuedEmits` records `scan` emissions queued with `setTimeout(..., 0)`
  and not yet delivered; each entry is (payload, captureImage flag at
  queueing time).

`scanCallback now result` is the analyzer callback body (lines 71-87);
`loopTick now dec` is one `requestAnimationFrame` delivery of `scan()`
(lines 58-88), where `dec = some r` means the analyzer invoked the callback
with decoded result `r` and `dec = none` means it did not.  The environment
(tick deliveries, refractory-timer firings, queued-emission deliveries) is a
list of `LCmd` commands; `lrun` returns the final state, the number of
analyzer invocations (scan attempts) and the emissions actually delivered. -/

structure LoopS where
  active : Bool
  scanPeriod : Nat
  frameCount : Nat
  refractoryPeriod : Nat
  captureImage : Bool
  lastResult : Option String
  refractory : Option Nat
  tickRequested : Bool
  queuedEmits : List (String × Bool)
deriving DecidableEq, Repr

def scanCallback (now : Nat) (result : String) (s : LoopS) : LoopS × Bool :=
  if s.lastResult = some result then
    (s, false)
  else
    ({ s with refractory := some (now + s.refractoryPeriod),
              lastResult := some result,
              queuedEmits := s.queuedEmits ++ [(result, s.captureImage)] }, true)

def fireRefractoryIfDue (now : Nat) (s : LoopS) : LoopS :=
  match s.refractory with
  | some e => if e ≤ now then { s with lastResult := none, refractory := none } else s
  | none => s

def decodeAt (now : Nat) (result : String) (s : LoopS) : LoopS × Bool :=
  scanCallback now result (fireRefractoryIfDue now s)

def startLoop (s : LoopS) : LoopS :=
  { s with active := true, tickRequested := true }

def stopLoop (s : LoopS) : LoopS :=
  { s with active := false }

def loopTick (now : Nat) (dec : Option String) (s : LoopS) : LoopS × Bool :=
  if s.active = false then
    ({ s with tickRequested := false }, false)
  else
    if s.frameCount + 1 ≠ s.scanPeriod then
      ({ s with tickRequested := true, frameCount := s.frameCount + 1 }, false)
    else
      match dec with
      | none => ({ s with tickRequested := true, frameCount := 0 }, true)
      | some r =>
        ((scanCallback now r { s with tickRequested := true, frameCount := 0 }).1, true)

inductive LCmd
  | tick (now : Nat) (dec : Option String)
  | fire (now : Nat)
  | deliver
deriving DecidableEq, Repr

def lstep : LCmd → LoopS → LoopS × Nat × List (String × Bool)
  | .tick now dec, s =>
    ((loopTick now dec s).1, if (loopTick now dec s).2 then 1 else 0, [])
  | .fire now, s => (fireRefractoryIfDue now s, 0, [])
  | .deliver, s =>
    match s.queuedEmits with
    | [] => (s, 0, [])
    | e :: rest => ({ s with queuedEmits := rest }, 0, [e])

def lrun : List LCmd → LoopS → LoopS × Nat × List (String × Bool)
  | [], s => (s, 0, [])
  | c :: cs, s =>
    ((lrun cs (lstep c s).1).1,
     (lstep c s).2.1 + (lrun cs (lstep c s).1).2.1,
     (lstep c s).2.2 ++ (lrun cs (lstep c s).1).2.2)

def tickCount : List LCmd → Nat
  | [] => 0
  | .tick _ _ :: cs => tickCount cs + 1
  | .fire _ :: cs => tickCount cs
  | .deliver :: cs => tickCount cs

/-- Claim C9: `Camera.stop()` is idempotent: calling it twice leaves the
camera in the same state as calling it once; a call with no held stream is a
no-op, and otherwise every held video track is stopped and the stream
reference is cleared. -/
theorem camera_stop_idempotent (c : CameraS) :
    cameraStop (cameraStop c) = cameraStop c ∧
    (c.stream = none → cameraStop c = c) ∧
    (∀ ts, c.stream = some ts →
      (cameraStop c).stream = none ∧
      (cameraStop c).stoppedTracks = c.stoppedTracks ++ ts) := by
  obtain ⟨i, n, st, tr⟩ := c
  cases st <;> simp [cameraStop]

/-- Witness for C9: a camera holding a two-track stream; stopping stops both
tracks and clears the stream, and a second stop changes nothing. -/
theorem camera_stop_idempotent_witness :
    cameraStop (cameraStop ⟨1, "cam", some [10, 11], []⟩) =
      cameraStop ⟨1, "cam", some [10, 11], []⟩ ∧
    (cameraStop ⟨1, "cam", some [10, 11], []⟩).stream = none ∧
    (cameraStop ⟨1, "cam", some [10, 11], []⟩).stoppedTracks = [10, 11] ∧
    cameraStop ⟨2, "idle", none, [3]⟩ = ⟨2, "idle", none, [3]⟩ := by
  refine ⟨(camera_stop_idempotent ⟨1, "cam", some [10, 11], []⟩).1, ?_, ?_, ?_⟩
  · exact ((camera_stop_idempotent ⟨1, "cam", some [10, 11], []⟩).2.2 [10, 11] rfl).1
  · exact ((camera_stop_idempotent ⟨1, "cam", some [10, 11], []⟩).2.2 [10, 11] rfl).2
  · exact (camera_stop_idempotent ⟨2, "idle", none, [3]⟩).2.1 rfl

/-- Claim C10: on the first scan attempt where the video has a usable frame
(`videoWidth` nonzero) and no geometry is established yet, `Analyzer.analyze`
only establishes the capture geometry (canvas dimensions and image buffer)
and returns without reaching the pixel-extraction/decoder section, so that
first usable frame is never decoded; the next attempt reuses the established
geometry unchanged and does invoke the decoder. -/
theorem analyzer_first_frame (vw vh : Nat) (dec dec2 : Option String) (s : AnalyzerS)
    (hvw : vw ≠ 0) (hbuf : s.imageBuffer = none) :
    (analyze vw vh dec s).2.1 = false ∧
    (analyze vw vh dec s).2.2 = none ∧
    (analyze vw vh dec s).1.imageBuffer = some (vw, vh) ∧
    (analyze vw vh dec s).1.canvasWidth = some vw ∧
    (analyze vw vh dec s).1.canvasHeight = some vh ∧
    (analyze vw vh dec s).1.sensorLeft = some 0 ∧
    (analyze vw vh dec s).1.sensorTop = some 0 ∧
    (analyze vw vh dec2 (analyze vw vh dec s).1).1 = (analyze vw vh dec s).1 ∧
    (analyze vw vh dec2 (analyze vw vh dec s).1).2.1 = true ∧
    (analyze vw vh dec2 (analyze vw vh dec s).1).2.2 = dec2 := by
  simp only [analyze, hbuf, if_neg hvw, sub_self, Int.floor_zero]
  simp

/-- Witness for C10: a fresh analyzer seeing a 640x480 frame establishes the
geometry without decoding; the second attempt decodes and reports the
decoder's result. -/
theorem analyzer_first_frame_witness :
    (analyze 640 480 (some "QR") initAnalyzer).2.1 = false ∧
    (analyze 640 480 (some "QR") initAnalyzer).2.2 = none ∧
    (analyze 640 480 (some "QR") initAnalyzer).1.imageBuffer = some (640, 480) ∧
    (analyze 640 480 (some "QR")
      (analyze 640 480 (some "QR") initAnalyzer).1).2.1 = true ∧
    (analyze 640 480 (some "QR")
      (analyze 640 480 (some "QR") initAnalyzer).1).2.2 = some "QR" := by
  have h := analyzer_first_frame 640 480 (some "QR") (some "QR") initAnalyzer
    (by decide) rfl
  exact ⟨h.1, h.2.1, h.2.2.1, h.2.2.2.2.2.2.2.2.1, h.2.2.2.2.2.2.2.2.2⟩

/-! ### Field-preservation lemmas for the loop step functions -/

@[simp]
theorem fire_active (now : Nat) (s : LoopS) :
    (fireRefractoryIfDue now s).active = s.active := by
  obtain ⟨a, sp, fc, rp, ci, lr, rf, tk, qe⟩ := s
  cases rf with
  | none => rfl
  | some e => by_cases h : e ≤ now <;> simp [fireRefractoryIfDue, h]

@[simp]
theorem fire_scanPeriod (now : Nat) (s : LoopS) :
    (fireRefractoryIfDue now s).scanPeriod = s.scanPeriod := by
  obtain ⟨a, sp, fc, rp, ci, lr, rf, tk, qe⟩ := s
  cases rf with
  | none => rfl
  | some e => by_cases h : e ≤ now <;> simp [fireRefractoryIfDue, h]

@[simp]
theorem fire_frameCount (now : Nat) (s : LoopS) :
    (fireRefractoryIfDue now s).frameCount = s.frameCount := by
  obtain ⟨a, sp, fc, rp, ci, lr, rf, tk, qe⟩ := s
  cases rf with
  | none => rfl
  | some e => by_cases h : e ≤ now <;> simp [fireRefractoryIfDue, h]

@[simp]
theorem fire_refractoryPeriod (now : Nat) (s : LoopS) :
    (fireRefractoryIfDue now s).refractoryPeriod = s.refractoryPeriod := by
  obtain ⟨a, sp, fc, rp, ci, lr, rf, tk, qe⟩ := s
  cases rf with
  | none => rfl
  | some e => by_cases h : e ≤ now <;> simp [fireRefractoryIfDue, h]

@[simp]
theorem fire_queuedEmits (now : Nat) (s : LoopS) :
    (fireRefractoryIfDue now s).queuedEmits = s.queuedEmits := by
  obtain ⟨a, sp, fc, rp, ci, lr, rf, tk, qe⟩ := s
  cases rf with
  | none => rfl
  | some e => by_cases h : e ≤ now <;> simp [fireRefractoryIfDue, h]

@[simp]
theorem scanCallback_active (now : Nat) (r : String) (s : LoopS) :
    (scanCallback now r s).1.active = s.active := by
  unfold scanCallback; split <;> rfl

@[simp]
theorem scanCallback_scanPeriod (now : Nat) (r : String) (s : LoopS) :
    (scanCallback now r s).1.scanPeriod = s.scanPeriod := by
  unfold scanCallback; split <;> rfl

@[simp]
theorem scanCallback_frameCount (now : Nat) (r : String) (s : LoopS) :
    (scanCallback now r s).1.frameCount = s.frameCount := by
  unfold scanCallback; split <;> rfl

/-- After `stop()` (the `active` flag cleared), any sequence of environment
callbacks performs zero scan attempts, delivers only emissions that were
already queued, and leaves the loop stopped. -/
theorem lrun_inactive (cmds : List LCmd) (s : LoopS) (h : s.active = false) :
    (lrun cmds s).1.active = false ∧
    (lrun cmds s).2.1 = 0 ∧
    (lrun cmds s).2.2 ++ (lrun cmds s).1.queuedEmits = s.queuedEmits := by
  induction cmds generalizing s with
  | nil => exact ⟨h, rfl, rfl⟩
  | cons c cs ih =>
    cases c with
    | tick now dec =>
      have h' := ih { s with tickRequested := false } h
      simpa [lrun, lstep, loopTick, h] using h'
    | fire now =>
      have h' := ih (fireRefractoryIfDue now s) (by simp [h])
      simp only [lrun, lstep]
      exact ⟨h'.1, by simpa using h'.2.1, by simpa using h'.2.2⟩
    | deliver =>
      cases hq : s.queuedEmits with
      | nil =>
        have h' := ih s h
        simp only [lrun, lstep, hq]
        refine ⟨h'.1, by simpa using h'.2.1, ?_⟩
        rw [List.nil_append, h'.2.2, hq]
      | cons e rest =>
        have h' := ih { s with queuedEmits := rest } h
        have h3 : (lrun cs { s with queuedEmits := rest }).2.2 ++
            (lrun cs { s with queuedEmits := rest }).1.queuedEmits = rest := h'.2.2
        simp only [lrun, lstep, hq]
        refine ⟨h'.1, by simpa using h'.2.1, ?_⟩
        simp only [List.cons_append, List.nil_append, List.append_assoc]
        rw [h3]

/-- A concrete stopped-mid-flight loop state: a refractory timer pending at
time 5, an outstanding animation-frame request, and one queued emission. -/
def sC3 : LoopS :=
  { active := true, scanPeriod := 1, frameCount := 0, refractoryPeriod := 5,
    captureImage := false, lastResult := some "A", refractory := some 5,
    tickRequested := true, queuedEmits := [("A", false)] }

/-- Claim C3 counterexample: `ActiveScan.stop()` only clears the `active`
flag; it does not cancel the pending refractory-expiry timer (the
`refractory` handle survives) nor the pending scheduled tick
(`tickRequested` survives), and an emission queued before `stop()` is still
delivered afterwards — contradicting the claim that stopping cancels any
pending scheduled tick and any pending refractory-expiry timer. -/
theorem activescan_stop_not_cancelled :
    (stopLoop sC3).refractory = some 5 ∧
    (stopLoop sC3).tickRequested = true ∧
    (lstep .deliver (stopLoop sC3)).2.2 = [("A", false)] := by
  decide

/-- Claim C3 (amended): `ActiveScan.stop()` is safe to call multiple times
(idempotent), and after it no scan attempt executes and no new `scan`
emission is queued — every emission delivered afterwards was already queued
before the stop; however the pending scheduled tick and the pending
refractory-expiry timer are not cancelled (the tick callback merely checks
the `active` flag and returns). -/
theorem activescan_stop_amended (s : LoopS) (cmds : List LCmd) :
    stopLoop (stopLoop s) = stopLoop s ∧
    (stopLoop s).refractory = s.refractory ∧
    (stopLoop s).tickRequested = s.tickRequested ∧
    (lrun cmds (stopLoop s)).2.1 = 0 ∧
    (lrun cmds (stopLoop s)).2.2 ++ (lrun cmds (stopLoop s)).1.queuedEmits
      = s.queuedEmits := by
  have h := lrun_inactive cmds (stopLoop s) rfl
  exact ⟨rfl, rfl, rfl, h.2.1, h.2.2⟩


theorem loopTick_skip (now : Nat) (dec : Option String) (s : LoopS)
    (ha : s.active = true) (hne : s.frameCount + 1 ≠ s.scanPeriod) :
    loopTick now dec s
      = ({ s with tickRequested := true, frameCount := s.frameCount + 1 }, false) := by
  unfold loopTick
  simp [ha, hne]

theorem loopTick_scan_none (now : Nat) (s : LoopS)
    (ha : s.active = true) (hhit : s.frameCount + 1 = s.scanPeriod) :
    loopTick now none s = ({ s with tickRequested := true, frameCount := 0 }, true) := by
  unfold loopTick
  simp [ha, hhit]

theorem loopTick_scan_some (now : Nat) (r : String) (s : LoopS)
    (ha : s.active = true) (hhit : s.frameCount + 1 = s.scanPeriod) :
    loopTick now (some r) s
      = ((scanCallback now r { s with tickRequested := true, frameCount := 0 }).1, true) := by
  unfold loopTick
  simp [ha, hhit]

/-- Cadence invariant: starting with `frameCount` strictly below the
configured `scanPeriod`, a running loop performs `(frameCount + number of
delivered ticks) / scanPeriod` scan attempts over any environment run. -/
theorem lrun_cadence (cmds : List LCmd) (s : LoopS)
    (ha : s.active = true) (hfc : s.frameCount < s.scanPeriod) :
    (lrun cmds s).2.1 = (s.frameCount + tickCount cmds) / s.scanPeriod := by
  induction cmds generalizing s with
  | nil => simp [lrun, tickCount, Nat.div_eq_of_lt hfc]
  | cons c cs ih =>
    cases c with
    | tick now dec =>
      have hN : 0 < s.scanPeriod := by omega
      by_cases hhit : s.frameCount + 1 = s.scanPeriod
      · have hdiv : (s.frameCount + (tickCount cs + 1)) / s.scanPeriod
            = tickCount cs / s.scanPeriod + 1 := by
          have he : s.frameCount + (tickCount cs + 1) = tickCount cs + s.scanPeriod := by
            omega
          rw [he, Nat.add_div_right _ hN]
        cases dec with
        | none =>
          have h' := ih { s with tickRequested := true, frameCount := 0 } ha hN
          simp only [lrun, lstep, loopTick_scan_none now s ha hhit, tickCount]
          simp at h' ⊢
          rw [h', hdiv]
          exact Nat.add_comm 1 _
        | some r =>
          have h' := ih (scanCallback now r { s with tickRequested := true, frameCount := 0 }).1
            (by simp [ha]) (by simpa using hN)
          simp only [lrun, lstep, loopTick_scan_some now r s ha hhit, tickCount]
          simp at h' ⊢
          rw [h', hdiv]
          exact Nat.add_comm 1 _
      · have hlt : s.frameCount + 1 < s.scanPeriod := by omega
        have h' := ih { s with tickRequested := true, frameCount := s.frameCount + 1 } ha hlt
        simp only [lrun, lstep, loopTick_skip now dec s ha hhit, tickCount]
        simp at h' ⊢
        rw [h']
        congr 1
        omega
    | fire now =>
      have h' := ih (fireRefractoryIfDue now s) (by simp [ha]) (by simpa using hfc)
      simp only [fire_frameCount, fire_scanPeriod] at h'
      simpa [lrun, lstep, tickCount] using h'
    | deliver =>
      cases hq : s.queuedEmits with
      | nil =>
        simpa [lrun, lstep, hq, tickCount] using ih s ha hfc
      | cons e rest =>
        simpa [lrun, lstep, hq, tickCount] using
          ih { s with queuedEmits := rest } ha hfc

/-- Claim C5: for every positive configured cadence N (`scanPeriod`), a
running `ActiveScan` starting at `frameCount = 0` performs exactly one scan
attempt (one call into the analyzer) per N scheduling ticks: over any
environment run containing k tick deliveries, exactly `k / N` analyzer
calls occur, regardless of how many ticks fire. -/
theorem scan_cadence (s : LoopS) (cmds : List LCmd)
    (ha : s.active = true) (hf : s.frameCount = 0) (hN : 0 < s.scanPeriod) :
    (lrun cmds s).2.1 = tickCount cmds / s.scanPeriod := by
  have h := lrun_cadence cmds s ha (by omega)
  rw [hf, Nat.zero_add] at h
  exact h

/-- A freshly started loop configured with `scanPeriod = 3`. -/
def sC5 : LoopS :=
  { active := true, scanPeriod := 3, frameCount := 0, refractoryPeriod := 100,
    captureImage := false, lastResult := none, refractory := none,
    tickRequested := true, queuedEmits := [] }

/-- Witness for C5: with `scanPeriod = 3` and seven delivered ticks, exactly
`7 / 3 = 2` scan attempts occur; moreover ticks 1 and 2 of the first group
are skipped and tick 3 performs the first scan attempt. -/
theorem scan_cadence_witness :
    0 < sC5.scanPeriod ∧
    (lrun [.tick 1 none, .tick 2 (some "Q"), .tick 3 (some "Q"), .tick 4 none,
           .tick 5 none, .tick 6 (some "Q"), .tick 7 none] sC5).2.1
      = tickCount [.tick 1 none, .tick 2 (some "Q"), .tick 3 (some "Q"), .tick 4 none,
           .tick 5 none, .tick 6 (some "Q"), .tick 7 none] / sC5.scanPeriod ∧
    tickCount [.tick 1 none, .tick 2 (some "Q"), .tick 3 (some "Q"), .tick 4 none,
           .tick 5 none, .tick 6 (some "Q"), .tick 7 none] / sC5.scanPeriod = 2 ∧
    (lrun [.tick 1 none] sC5).2.1 = 0 ∧
    (lrun [.tick 1 none, .tick 2 none] sC5).2.1 = 0 ∧
    (lrun [.tick 1 none, .tick 2 none, .tick 3 (some "Q")] sC5).2.1 = 1 := by
  refine ⟨by decide,
    scan_cadence sC5 [.tick 1 none, .tick 2 (some "Q"), .tick 3 (some "Q"), .tick 4 none,
      .tick 5 none, .tick 6 (some "Q"), .tick 7 none] rfl rfl (by decide),
    by decide, by decide, by decide, by decide⟩

/-- A decode of a payload equal to `lastResult`, while the refractory timer
(if any) is not yet due, changes nothing and emits nothing. -/
theorem decodeAt_suppress (s1 : LoopS) (t : Nat) (P : String)
    (h1 : s1.lastResult = some P) (h2 : ∀ e, s1.refractory = some e → ¬ e ≤ t) :
    decodeAt t P s1 = (s1, false) := by
  unfold decodeAt
  have hs : fireRefractoryIfDue t s1 = s1 := by
    unfold fireRefractoryIfDue
    obtain ⟨a, sp, fc, rp, ci, lr, rf, tk, qe⟩ := s1
    cases rf with
    | none => rfl
    | some e => simp [h2 e rfl]
  rw [hs]
  unfold scanCallback
  simp [h1]

/-- A decode after the pending refractory timer's expiry emits: the timer
fires first, clearing `lastResult`, so the payload no longer matches. -/
theorem decodeAt_emit_after (s1 : LoopS) (t : Nat) (P : String) (e : Nat)
    (hr : s1.refractory = some e) (he : e ≤ t) :
    (decodeAt t P s1).2 = true := by
  unfold decodeAt fireRefractoryIfDue
  simp [hr, he, scanCallback]

/-- Claim C4: within one `ActiveScan` session, if a decoded payload P is
emitted at time T, then (a) a second decode of P strictly before
`T + refractoryPeriod` produces no emission and no state change at all (in
particular no side effects), (b) a decode of P strictly after
`T + refractoryPeriod` — the timer having cleared `lastResult` — produces a
new emission, and (c) in general, while `lastResult` equals P a decode of P
has no side effects whatsoever. -/
theorem refractory_dedup (s : LoopS) (T : Nat) (P : String)
    (hemit : (decodeAt T P s).2 = true) :
    (∀ t, t < T + s.refractoryPeriod →
        decodeAt t P (decodeAt T P s).1 = ((decodeAt T P s).1, false)) ∧
    (∀ t, T + s.refractoryPeriod < t → (decodeAt t P (decodeAt T P s).1).2 = true) ∧
    (∀ (s2 : LoopS) (t2 : Nat), s2.lastResult = some P →
        scanCallback t2 P s2 = (s2, false)) := by
  have hside : ∀ (s2 : LoopS) (t2 : Nat), s2.lastResult = some P →
      scanCallback t2 P s2 = (s2, false) := by
    intro s2 t2 h2
    unfold scanCallback
    simp [h2]
  have hl : ¬ (fireRefractoryIfDue T s).lastResult = some P := by
    intro hcon
    rw [show decodeAt T P s = (fireRefractoryIfDue T s, false) from by
      unfold decodeAt; exact hside _ T hcon] at hemit
    simp at hemit
  have h1 : decodeAt T P s =
      ({ fireRefractoryIfDue T s with
          refractory := some (T + s.refractoryPeriod),
          lastResult := some P,
          queuedEmits := (fireRefractoryIfDue T s).queuedEmits
            ++ [(P, (fireRefractoryIfDue T s).captureImage)] }, true) := by
    unfold decodeAt scanCallback
    simp [hl]
  refine ⟨?_, ?_, hside⟩
  · intro t ht
    rw [h1]
    apply decodeAt_suppress
    · rfl
    · intro e hee
      have hee' : some (T + s.refractoryPeriod) = some e := hee
      injection hee' with h
      omega
  · intro t ht
    rw [h1]
    exact decodeAt_emit_after _ t P (T + s.refractoryPeriod) rfl (by omega)

/-- A fresh loop session with a 100ms refractory period. -/
def sC4 : LoopS :=
  { active := true, scanPeriod := 1, frameCount := 0, refractoryPeriod := 100,
    captureImage := false, lastResult := none, refractory := none,
    tickRequested := true, queuedEmits := [] }

/-- Witness for C4: payload "ABC" emitted at time 10; a re-decode at time 50
(before 110) is fully suppressed, a re-decode at time 200 (after 110) emits
again, and a decode while `lastResult = "ABC"` leaves the state unchanged. -/
theorem refractory_dedup_witness :
    (decodeAt 10 "ABC" sC4).2 = true ∧
    decodeAt 50 "ABC" (decodeAt 10 "ABC" sC4).1 = ((decodeAt 10 "ABC" sC4).1, false) ∧
    (decodeAt 200 "ABC" (decodeAt 10 "ABC" sC4).1).2 = true ∧
    scanCallback 60 "ABC" (decodeAt 10 "ABC" sC4).1 = ((decodeAt 10 "ABC" sC4).1, false) := by
  have h := refractory_dedup sC4 10 "ABC" (by decide)
  exact ⟨by decide, h.1 50 (by decide), h.2.1 200 (by decide),
    h.2.2 (decodeAt 10 "ABC" sC4).1 60 (by decide)⟩

/-! ### Scanner (src/gulpfile.js scanner section, lines 162-298)

The `Scanner` drives a `javascript-state-machine` v2 machine with states
`stopped / started / active / inactive` and events `start / stop / activate
/ deactivate` (lines 189-214), plus the visibility handler (lines 175-187)
and the public API `start` / `stop` / `set camera` (lines 219-241).

State components:

* `current`: the machine's current state;
* `pending`: `fsm.transition` is set, i.e. an `activate` transition is
  suspended awaiting the camera-acquisition callback (the only ASYNC
  transition the scanner configures; during it `current` is still the
  pre-transition state);
* `camera`: `this._camera` (camera objects are identified by a `Nat` id);
* `scan`: `this._scan` is a started `ActiveScan` (the loop internals are
  modelled separately by `LoopS`);
* `visible`: the page-visibility state reported by `Visibility.state()`;
* `visTasks`: visibility-to-visible handlers queued with
  `setTimeout(..., 0)` and not yet run;
* `events`: emissions, most recent first; `camStarts` / `camStops`: ids of
  cameras on which `.start` / `.stop` was invoked, most recent first.

The step functions inline the `javascript-state-machine` v2 event dispatch
for this concrete machine: an event fired while a transition is pending hits
the default error handler, which throws (modelled by the returned `Bool`,
`true` = an exception was thrown and propagated to the caller); `can` is
false while a transition is pending; `onleave<state>` specific callbacks run
before the generic `onleavestate`; a generic leave callback returning
`false` cancels the transition with no state change; returning `ASYNC`
leaves the transition pending until `fsm.transition()` /
`fsm.transition.cancel()` is called from the camera callback. -/

inductive St
  | stopped
  | started
  | active
  | inactive
deriving DecidableEq, Repr

inductive SEv
  | active
  | inactive
  | error (code : Nat)
deriving DecidableEq, Repr

structure ScannerS where
  current : St
  pending : Bool
  camera : Option Nat
  scan : Bool
  backgroundScan : Bool
  visible : Bool
  visTasks : Nat
  events : List SEv
  camStarts : List Nat
  camStops : List Nat
deriving DecidableEq, Repr

def emitE (e : SEv) (s : ScannerS) : ScannerS :=
  { s with events := e :: s.events }

/-- Method `_disableScan` of `Scanner` (lines 264-275): clear `video.src`, stop and drop
the `ActiveScan`, and call `stop()` on the held camera (the `_camera`
reference itself is kept). -/
def disableScan (s : ScannerS) : ScannerS :=
  match s.camera with
  | some c => { s with scan := false, camStops := c :: s.camStops }
  | none => { s with scan := false }

def canStart (s : ScannerS) : Bool :=
  !s.pending && decide (s.current = .stopped)

def canStop (s : ScannerS) : Bool :=
  !s.pending && !decide (s.current = .stopped)

def canActivate (s : ScannerS) : Bool :=
  !s.pending && (decide (s.current = .started) || decide (s.current = .inactive))

def canDeactivate (s : ScannerS) : Bool :=
  !s.pending && (decide (s.current = .started) || decide (s.current = .active))

/-- Event `fsm.activate(camera)`: allowed from `started` / `inactive`.  The
generic `onleavestate` callback (lines 203-211) vetoes entry into `active`
when the page is hidden and background scanning is off (returns `false` =
transition cancelled, no state change, no events); otherwise it runs
`_enableScan(camera)` (lines 243-262): record `camera || this._camera`,
cancel if no camera is available, else invoke `camera.start(cb)` and return
`ASYNC`, leaving the transition pending until the callback arrives.  The
returned flag is `true` when the firing threw (pending transition or
invalid source state). -/
def fsmActivate (cam : Option Nat) (s : ScannerS) : ScannerS × Bool :=
  if s.pending then (s, true)
  else
    match s.current with
    | .started | .inactive =>
      if s.visible = false ∧ s.backgroundScan = false then (s, false)
      else
        match cam.orElse (fun _ => s.camera) with
        | none => ({ s with camera := none }, false)
        | some c =>
          ({ s with camera := some c, pending := true, camStarts := c :: s.camStarts },
           false)
    | _ => (s, true)

/-- Event `fsm.start(camera)`: allowed from `stopped`; commits to `started`, whose
entry callback `onstarted` (line 212) immediately fires
`fsm.activate(camera)`. -/
def fsmStart (cam : Option Nat) (s : ScannerS) : ScannerS × Bool :=
  if s.pending then (s, true)
  else
    match s.current with
    | .stopped => fsmActivate cam { s with current := .started }
    | _ => (s, true)

/-- Event `fsm.deactivate()`: allowed from `started` / `active`.  Leaving `active`
runs `onleaveactive` (lines 199-202): `_disableScan()` then emit
`inactive`. -/
def fsmDeactivate (s : ScannerS) : ScannerS × Bool :=
  if s.pending then (s, true)
  else
    match s.current with
    | .started => ({ s with current := .inactive }, false)
    | .active => ({ emitE .inactive (disableScan s) with current := .inactive }, false)
    | _ => (s, true)

/-- Event `fsm.stop()`: allowed from `started` / `active` / `inactive`; leaving
`active` runs `onleaveactive` first. -/
def fsmStop (s : ScannerS) : ScannerS × Bool :=
  if s.pending then (s, true)
  else
    match s.current with
    | .stopped => (s, true)
    | .active => ({ emitE .inactive (disableScan s) with current := .stopped }, false)
    | _ => ({ s with current := .stopped }, false)

/-- Arrival of the `camera.start` callback registered by `_enableScan`
(lines 249-259).  On failure (`err = some code`): `fsm.transition.cancel()`
— the pending transition is dropped, `current` keeps its pre-transition
value — then `emit('error', err)`.  On success: set `video.src`, construct
and start a fresh `ActiveScan`, then `fsm.transition()` commits the
transition: `current` becomes `active` and `onactive` emits `active`. -/
def deliverCam (err : Option Nat) (s : ScannerS) : ScannerS :=
  if s.pending then
    match err with
    | some e => emitE (.error e) { s with pending := false }
    | none => emitE .active { s with pending := false, current := .active, scan := true }
  else s

/-- Public `Scanner.start(camera)` (lines 219-226). -/
def scannerStart (cam : Option Nat) (s : ScannerS) : ScannerS × Bool :=
  if canStart s then fsmStart cam s
  else if (fsmStop s).2 then fsmStop s
  else fsmStart cam (fsmStop s).1

/-- Public `Scanner.stop()` (lines 228-232). -/
def scannerStop (s : ScannerS) : ScannerS × Bool :=
  if canStop s then fsmStop s else (s, false)

/-- Setter `set camera` (lines 234-241): while `stopped` or `inactive` just record
the camera; otherwise `fsm.stop()` then `fsm.start(camera)`. -/
def setCamera (cam : Option Nat) (s : ScannerS) : ScannerS × Bool :=
  match s.current with
  | .stopped | .inactive => ({ s with camera := cam }, false)
  | _ =>
    if (fsmStop s).2 then fsmStop s
    else fsmStart cam (fsmStop s).1

/-- The `Visibility.change` handler (lines 175-187): on `visible`, queue a
deferred (`setTimeout 0`) guarded-activate task; on `hidden`, immediately
`deactivate` if background scanning is off and the transition is legal. -/
def visChange (toVisible : Bool) (s : ScannerS) : ScannerS × Bool :=
  if toVisible then
    ({ s with visible := true, visTasks := s.visTasks + 1 }, false)
  else
    if !s.backgroundScan && canDeactivate { s with visible := false } then
      fsmDeactivate { s with visible := false }
    else ({ s with visible := false }, false)

/-- Delivery of one deferred visible-activate task: run
`if (fsm.can('activate')) fsm.activate()`. -/
def runVisTask (s : ScannerS) : ScannerS × Bool :=
  match s.visTasks with
  | 0 => (s, false)
  | n + 1 =>
    if canActivate { s with visTasks := n } then fsmActivate none { s with visTasks := n }
    else ({ s with visTasks := n }, false)

inductive Cmd
  | start (cam : Option Nat)
  | stop
  | activate
  | deactivate
  | setCam (cam : Option Nat)
  | visChange (toVisible : Bool)
  | runVisTask
  | camResult (err : Option Nat)
deriving DecidableEq, Repr

def step : Cmd → ScannerS → ScannerS × Bool
  | .start cam, s => scannerStart cam s
  | .stop, s => scannerStop s
  | .activate, s => fsmActivate none s
  | .deactivate, s => fsmDeactivate s
  | .setCam cam, s => setCamera cam s
  | .visChange v, s => visChange v s
  | .runVisTask, s => runVisTask s
  | .camResult e, s => (deliverCam e s, false)

def runCmds : List Cmd → ScannerS → ScannerS
  | [], s => s
  | c :: cs, s => runCmds cs (step c s).1

/-- The scanner right after construction (lines 162-217): state machine in
`stopped`, no camera, no session, and one initial `inactive` emission
(line 216).  `bg` is the `backgroundScan` option, `vis` the initial page
visibility. -/
def initS (bg vis : Bool) : ScannerS :=
  { current := .stopped, pending := false, camera := none, scan := false,
    backgroundScan := bg, visible := vis, visTasks := 0,
    events := [.inactive], camStarts := [], camStops := [] }

/-! ### Alternation of the `active` / `inactive` events (claim C2)

`actInact` projects the emission log onto the `active` / `inactive` events;
`altern l = true` says no two adjacent entries of `l` are equal.  Since the
only events in the projected log are `active` and `inactive`, and the log
starts (chronologically) with the constructor's `inactive`, strict
alternation is exactly the claim: after any `active` emission, exactly one
`inactive` is emitted before any subsequent `active`.  The invariant
`ScanInv` ties the head (most recent projected event) to the current state
and is preserved by every command. -/

def isActInact : SEv → Bool
  | .active => true
  | .inactive => true
  | .error _ => false

def actInact (l : List SEv) : List SEv :=
  l.filter isActInact

def altern : List SEv → Bool
  | [] => true
  | [_] => true
  | a :: b :: t => if a = b then false else altern (b :: t)

def stTag (c : St) : SEv :=
  if c = .active then .active else .inactive

def ScanInv (s : ScannerS) : Prop :=
  (s.pending = true → (s.current = .started ∨ s.current = .inactive)) ∧
  altern (actInact s.events) = true ∧
  (actInact s.events).head? = some (stTag s.current)

@[simp]
theorem actInact_cons_active (l : List SEv) :
    actInact (SEv.active :: l) = SEv.active :: actInact l := rfl

@[simp]
theorem actInact_cons_inactive (l : List SEv) :
    actInact (SEv.inactive :: l) = SEv.inactive :: actInact l := rfl

@[simp]
theorem actInact_cons_error (c : Nat) (l : List SEv) :
    actInact (SEv.error c :: l) = actInact l := rfl

theorem altern_push (e : SEv) (l : List SEv) (x : SEv)
    (h2 : altern l = true) (h3 : l.head? = some x) (hne : e ≠ x) :
    altern (e :: l) = true ∧ (e :: l).head? = some e := by
  cases l with
  | nil => simp at h3
  | cons a t =>
    have hax : a = x := by simpa using h3
    subst hax
    refine ⟨?_, rfl⟩
    simp only [altern, if_neg hne]
    exact h2

@[simp]
theorem disableScan_events (s : ScannerS) : (disableScan s).events = s.events := by
  obtain ⟨cur, pend, cam0, scn, bg, vis, vt, evs, cst, csp⟩ := s
  cases cam0 <;> rfl

@[simp]
theorem disableScan_current (s : ScannerS) : (disableScan s).current = s.current := by
  obtain ⟨cur, pend, cam0, scn, bg, vis, vt, evs, cst, csp⟩ := s
  cases cam0 <;> rfl

@[simp]
theorem disableScan_pending (s : ScannerS) : (disableScan s).pending = s.pending := by
  obtain ⟨cur, pend, cam0, scn, bg, vis, vt, evs, cst, csp⟩ := s
  cases cam0 <;> rfl

theorem inv_fsmActivate (cam : Option Nat) (s : ScannerS) (h : ScanInv s) :
    ScanInv (fsmActivate cam s).1 := by
  obtain ⟨h1, h2, h3⟩ := h
  obtain ⟨cur, pend, cam0, scn, bg, vis, vt, evs, cst, csp⟩ := s
  simp only [ScanInv] at *
  cases pend <;> cases cur <;> cases vis <;> cases bg <;> cases cam <;> cases cam0 <;>
    simp_all [fsmActivate, Option.orElse, stTag]

theorem inv_fsmStart (cam : Option Nat) (s : ScannerS) (h : ScanInv s) :
    ScanInv (fsmStart cam s).1 := by
  have h' := h
  obtain ⟨h1, h2, h3⟩ := h'
  unfold fsmStart
  by_cases hp : s.pending = true
  · simpa [hp] using h
  · have hp' : s.pending = false := by simpa using hp
    rw [hp']
    simp only [Bool.false_eq_true, if_false]
    cases hc : s.current with
    | stopped =>
      apply inv_fsmActivate
      refine ⟨by simp [hp'], h2, ?_⟩
      simpa [stTag, hc] using h3
    | started => exact h
    | active => exact h
    | inactive => exact h

theorem inv_fsmDeactivate (s : ScannerS) (h : ScanInv s) : ScanInv (fsmDeactivate s).1 := by
  obtain ⟨h1, h2, h3⟩ := h
  unfold fsmDeactivate
  by_cases hp : s.pending = true
  · simpa [hp] using ⟨h1, h2, h3⟩
  · have hp' : s.pending = false := by simpa using hp
    rw [hp']
    simp only [Bool.false_eq_true, if_false]
    cases hc : s.current with
    | stopped => exact ⟨h1, h2, h3⟩
    | started =>
      refine ⟨by simp [hp'], h2, ?_⟩
      simpa [stTag, hc] using h3
    | active =>
      rw [hc] at h3
      simp only [stTag, if_pos rfl] at h3
      have hpush := altern_push .inactive (actInact s.events) .active h2 h3 (by decide)
      refine ⟨by simp [hp', emitE], ?_, ?_⟩
      · simpa [emitE] using hpush.1
      · simpa [emitE, stTag] using hpush.2
    | inactive => exact ⟨h1, h2, h3⟩

theorem inv_fsmStop (s : ScannerS) (h : ScanInv s) : ScanInv (fsmStop s).1 := by
  obtain ⟨h1, h2, h3⟩ := h
  unfold fsmStop
  by_cases hp : s.pending = true
  · simpa [hp] using ⟨h1, h2, h3⟩
  · have hp' : s.pending = false := by simpa using hp
    rw [hp']
    simp only [Bool.false_eq_true, if_false]
    cases hc : s.current with
    | stopped => exact ⟨h1, h2, h3⟩
    | started =>
      refine ⟨by simp [hp'], h2, ?_⟩
      simpa [stTag, hc] using h3
    | active =>
      rw [hc] at h3
      simp only [stTag, if_pos rfl] at h3
      have hpush := altern_push .inactive (actInact s.events) .active h2 h3 (by decide)
      refine ⟨by simp [hp', emitE], ?_, ?_⟩
      · simpa [emitE] using hpush.1
      · simpa [emitE, stTag] using hpush.2
    | inactive =>
      refine ⟨by simp [hp'], h2, ?_⟩
      simpa [stTag, hc] using h3

theorem inv_deliverCam (err : Option Nat) (s : ScannerS) (h : ScanInv s) :
    ScanInv (deliverCam err s) := by
  obtain ⟨h1, h2, h3⟩ := h
  unfold deliverCam
  by_cases hp : s.pending = true
  · rw [if_pos hp]
    cases err with
    | some e =>
      refine ⟨by simp [emitE], ?_, ?_⟩
      · simpa [emitE] using h2
      · simpa [emitE] using h3
    | none =>
      have hcur := h1 hp
      have htag : stTag s.current = .inactive := by
        rcases hcur with hcc | hcc <;> simp [stTag, hcc]
      rw [htag] at h3
      have hpush := altern_push .active (actInact s.events) .inactive h2 h3 (by decide)
      refine ⟨by simp [emitE], ?_, ?_⟩
      · simpa [emitE] using hpush.1
      · simpa [emitE, stTag] using hpush.2
  · simpa [hp] using ⟨h1, h2, h3⟩

theorem inv_scannerStart (cam : Option Nat) (s : ScannerS) (h : ScanInv s) :
    ScanInv (scannerStart cam s).1 := by
  unfold scannerStart
  by_cases hc : canStart s = true
  · simpa [hc] using inv_fsmStart cam s h
  · simp only [hc, Bool.false_eq_true, if_false]
    by_cases h2 : (fsmStop s).2 = true
    · simpa [h2] using inv_fsmStop s h
    · simpa [h2] using inv_fsmStart cam _ (inv_fsmStop s h)

theorem inv_scannerStop (s : ScannerS) (h : ScanInv s) : ScanInv (scannerStop s).1 := by
  unfold scannerStop
  by_cases hc : canStop s = true
  · simpa [hc] using inv_fsmStop s h
  · simpa [hc] using h

theorem inv_setCamera (cam : Option Nat) (s : ScannerS) (h : ScanInv s) :
    ScanInv (setCamera cam s).1 := by
  have h' := h
  obtain ⟨h1, h2, h3⟩ := h'
  unfold setCamera
  cases hc : s.current with
  | stopped =>
    refine ⟨?_, h2, ?_⟩
    · intro hp
      rcases h1 hp with hx | hx <;> rw [hc] at hx <;> exact absurd hx (by decide)
    · rw [hc] at h3
      exact h3
  | inactive =>
    refine ⟨fun hp => Or.inr rfl, h2, ?_⟩
    rw [hc] at h3
    exact h3
  | started =>
    by_cases hs : (fsmStop s).2 = true
    · simpa [hs] using inv_fsmStop s h
    · simpa [hs] using inv_fsmStart cam _ (inv_fsmStop s h)
  | active =>
    by_cases hs : (fsmStop s).2 = true
    · simpa [hs] using inv_fsmStop s h
    · simpa [hs] using inv_fsmStart cam _ (inv_fsmStop s h)

theorem inv_visChange (v : Bool) (s : ScannerS) (h : ScanInv s) :
    ScanInv (visChange v s).1 := by
  have h' := h
  obtain ⟨h1, h2, h3⟩ := h'
  unfold visChange
  cases v
  · simp only [Bool.false_eq_true, if_false]
    by_cases hcd : (!s.backgroundScan && canDeactivate { s with visible := false }) = true
    · simpa [hcd] using inv_fsmDeactivate { s with visible := false } ⟨h1, h2, h3⟩
    · simpa [hcd] using ⟨h1, h2, h3⟩
  · exact ⟨h1, h2, h3⟩

theorem inv_runVisTask (s : ScannerS) (h : ScanInv s) : ScanInv (runVisTask s).1 := by
  have h' := h
  obtain ⟨h1, h2, h3⟩ := h'
  unfold runVisTask
  cases hv : s.visTasks with
  | zero => exact ⟨h1, h2, h3⟩
  | succ n =>
    by_cases hca : canActivate { s with visTasks := n } = true
    · simpa [hca] using inv_fsmActivate none { s with visTasks := n } ⟨h1, h2, h3⟩
    · simpa [hca] using ⟨h1, h2, h3⟩

theorem inv_step (c : Cmd) (s : ScannerS) (h : ScanInv s) : ScanInv (step c s).1 := by
  cases c with
  | start cam => exact inv_scannerStart cam s h
  | stop => exact inv_scannerStop s h
  | activate => exact inv_fsmActivate none s h
  | deactivate => exact inv_fsmDeactivate s h
  | setCam cam => exact inv_setCamera cam s h
  | visChange v => exact inv_visChange v s h
  | runVisTask => exact inv_runVisTask s h
  | camResult e => exact inv_deliverCam e s h

theorem inv_runCmds (cmds : List Cmd) (s : ScannerS) (h : ScanInv s) :
    ScanInv (runCmds cmds s) := by
  induction cmds generalizing s with
  | nil => exact h
  | cons c cs ih => exact ih (step c s).1 (inv_step c s h)

theorem inv_initS (bg vis : Bool) : ScanInv (initS bg vis) := by
  exact ⟨by simp [initS], rfl, rfl⟩

/-- Claim C2: for every sequence of commands applied to a freshly
constructed scanner (public `start` / `stop` / `set camera` calls, direct
`activate` / `deactivate` firings, visibility changes and their deferred
tasks, and camera-acquisition callbacks), the emitted `active` and
`inactive` events strictly alternate: the projection of the emission log
onto these two events never has two equal adjacent entries, so after any
`active`, exactly one `inactive` occurs before any subsequent `active`. -/
theorem scanner_active_inactive_alternate (cmds : List Cmd) (bg vis : Bool) :
    altern (actInact (runCmds cmds (initS bg vis)).events) = true :=
  (inv_runCmds cmds (initS bg vis) (inv_initS bg vis)).2.1

/-- Claim C1: if camera acquisition fails while an activation transition is
pending (entry into `active`), the scanner emits an `error` event carrying
the failure, the pending transition is cancelled, and the state machine
keeps its pre-transition value rather than remaining mid-transition; the
scan loop is not started (the `_scan` session is untouched — in particular
it stays absent, since the error branch never constructs an
`ActiveScan`). -/
theorem scanner_camera_error_cancels (s : ScannerS) (e : Nat) (h : s.pending = true) :
    (deliverCam (some e) s).current = s.current ∧
    (deliverCam (some e) s).pending = false ∧
    (deliverCam (some e) s).events = .error e :: s.events ∧
    (deliverCam (some e) s).scan = s.scan := by
  unfold deliverCam
  rw [if_pos h]
  exact ⟨rfl, rfl, rfl, rfl⟩

/-- A reachable mid-activation configuration: `start(camera 1)` has been
called and the camera-acquisition callback has not yet arrived. -/
def sC1 : ScannerS := runCmds [.start (some 1)] (initS false true)

/-- Witness for C1: from the pending configuration, a failing camera
callback (error code 7) emits `error 7`, clears the pending transition,
keeps `current = started`, and starts no scan loop. -/
theorem scanner_camera_error_cancels_witness :
    sC1.pending = true ∧
    (deliverCam (some 7) sC1).current = sC1.current ∧
    (deliverCam (some 7) sC1).pending = false ∧
    (deliverCam (some 7) sC1).events = .error 7 :: sC1.events ∧
    (deliverCam (some 7) sC1).scan = sC1.scan ∧
    sC1.current = .started ∧ sC1.scan = false := by
  have h := scanner_camera_error_cancels sC1 7 (by decide)
  exact ⟨by decide, h.1, h.2.1, h.2.2.1, h.2.2.2, by decide, by decide⟩

/-- Claim C6 counterexample: from the reachable configuration in which a
camera acquisition is still pending (mid-transition, `current = started`),
a second `Scanner.start` does not force a stop and start fresh: the forced
`fsm.stop()` hits the pending-transition branch of the event dispatcher,
whose default error handler throws, and the scanner state is completely
unchanged — no stop, no fresh start, no camera call. -/
theorem scanner_start_pending_throws :
    (runCmds [.start (some 1)] (initS false true)).pending = true ∧
    (scannerStart (some 2) (runCmds [.start (some 1)] (initS false true))).2 = true ∧
    (scannerStart (some 2) (runCmds [.start (some 1)] (initS false true))).1
      = runCmds [.start (some 1)] (initS false true) := by
  decide

/-- Claim C6 (amended): `Scanner.start(camera?)` called in any state with
no activation transition pending succeeds in starting fresh: it never
throws, it first forces a stop when not already `stopped` (if the scanner
was `active`, the session is stopped and the held camera released), it
lands in `started`, and — when the page is visible or background scanning
is on — it begins acquiring the given camera, or the last-known camera when
none is supplied, leaving the activation pending.  (When an acquisition is
already pending, `start` instead throws and changes nothing, per the
counterexample.) -/
theorem scanner_start_fresh (s : ScannerS) (cam : Option Nat) (h : s.pending = false) :
    (scannerStart cam s).2 = false ∧
    (scannerStart cam s).1.current = .started ∧
    ((s.visible || s.backgroundScan) = true → cam = none →
      ∀ c, s.camera = some c →
        (scannerStart cam s).1.camera = some c ∧
        (scannerStart cam s).1.pending = true ∧
        (scannerStart cam s).1.camStarts = c :: s.camStarts) ∧
    (s.current = .active →
      (scannerStart cam s).1.scan = false ∧
      ∀ c, s.camera = some c →
        (scannerStart cam s).1.camStops = c :: s.camStops) := by
  obtain ⟨cur, pend, cam0, scn, bg, vis, vt, evs, cst, csp⟩ := s
  cases pend <;> cases cur <;> cases vis <;> cases bg <;> cases cam <;> cases cam0 <;>
    simp_all [scannerStart, canStart, fsmStart, fsmStop, fsmActivate, disableScan,
      emitE, Option.orElse]

/-- An active scanner holding camera 5. -/
def sC6 : ScannerS :=
  { current := .active, pending := false, camera := some 5, scan := true,
    backgroundScan := false, visible := true, visTasks := 0,
    events := [.active, .inactive], camStarts := [5], camStops := [] }

/-- Witness for C6 (amended): `start()` with no argument on an active
scanner stops the session (camera 5 released), restarts, and re-acquires
the last-known camera 5. -/
theorem scanner_start_fresh_witness :
    (scannerStart none sC6).2 = false ∧
    (scannerStart none sC6).1.current = .started ∧
    (scannerStart none sC6).1.pending = true ∧
    (scannerStart none sC6).1.camera = some 5 ∧
    (scannerStart none sC6).1.camStarts = 5 :: sC6.camStarts ∧
    (scannerStart none sC6).1.scan = false ∧
    (scannerStart none sC6).1.camStops = 5 :: sC6.camStops := by
  have h := scanner_start_fresh sC6 none rfl
  exact ⟨h.1, h.2.1, (h.2.2.1 rfl rfl 5 rfl).2.1, (h.2.2.1 rfl rfl 5 rfl).1,
    (h.2.2.1 rfl rfl 5 rfl).2.2, (h.2.2.2 rfl).1, (h.2.2.2 rfl).2 5 rfl⟩

/-- Claim C7 counterexample: assigning the camera property while
`current = started` with a camera acquisition pending does not force
stop-then-start with the new camera: the forced `fsm.stop()` throws on the
pending transition and the scanner state is unchanged — the new camera is
not recorded and no restart happens. -/
theorem scanner_set_camera_pending_throws :
    (runCmds [.start (some 3)] (initS false true)).current = .started ∧
    (runCmds [.start (some 3)] (initS false true)).pending = true ∧
    (setCamera (some 4) (runCmds [.start (some 3)] (initS false true))).2 = true ∧
    (setCamera (some 4) (runCmds [.start (some 3)] (initS false true))).1
      = runCmds [.start (some 3)] (initS false true) := by
  decide

/-- Claim C7 (amended): assigning the camera property while the state is
`stopped` or `inactive` only records the new camera for the next activation
(no transition, no events — the state is otherwise untouched); assigning it
while `started` or `active` with no acquisition pending forces a stop
followed by a start with the new camera — the old session is stopped and
its camera released, and (when visible or background scanning) acquisition
of the new camera begins — so a session is never reused across a different
camera.  (While `started` with an acquisition pending, the assignment
instead throws and changes nothing, per the counterexample.) -/
theorem scanner_set_camera_spec (s : ScannerS) (cam : Option Nat) :
    ((s.current = .stopped ∨ s.current = .inactive) →
        setCamera cam s = ({ s with camera := cam }, false)) ∧
    ((s.current = .started ∨ s.current = .active) → s.pending = false →
        (setCamera cam s).2 = false ∧
        (setCamera cam s).1.current = .started ∧
        ((s.visible || s.backgroundScan) = true →
          ∀ c, cam = some c →
            (setCamera cam s).1.camera = some c ∧
            (setCamera cam s).1.pending = true ∧
            (setCamera cam s).1.camStarts = c :: s.camStarts) ∧
        (s.current = .active →
          (setCamera cam s).1.scan = false ∧
          ∀ c, s.camera = some c →
            (setCamera cam s).1.camStops = c :: s.camStops)) := by
  obtain ⟨cur, pend, cam0, scn, bg, vis, vt, evs, cst, csp⟩ := s
  cases pend <;> cases cur <;> cases vis <;> cases bg <;> cases cam <;> cases cam0 <;>
    simp_all [setCamera, fsmStop, fsmStart, fsmActivate, disableScan, emitE,
      Option.orElse]

/-- An active scanner holding camera 5. -/
def sC7 : ScannerS :=
  { current := .active, pending := false, camera := some 5, scan := true,
    backgroundScan := false, visible := true, visTasks := 0,
    events := [.active, .inactive], camStarts := [5], camStops := [] }

/-- The same scanner, inactive. -/
def sC7i : ScannerS :=
  { sC7 with current := .inactive, scan := false }

/-- Witness for C7 (amended): while inactive, assigning camera 9 only
records it; while active, assigning camera 9 stops the session (camera 5
released), restarts, and begins acquiring camera 9. -/
theorem scanner_set_camera_spec_witness :
    setCamera (some 9) sC7i = ({ sC7i with camera := some 9 }, false) ∧
    (setCamera (some 9) sC7).2 = false ∧
    (setCamera (some 9) sC7).1.current = .started ∧
    (setCamera (some 9) sC7).1.camera = some 9 ∧
    (setCamera (some 9) sC7).1.pending = true ∧
    (setCamera (some 9) sC7).1.camStarts = 9 :: sC7.camStarts ∧
    (setCamera (some 9) sC7).1.scan = false ∧
    (setCamera (some 9) sC7).1.camStops = 5 :: sC7.camStops := by
  have ha := scanner_set_camera_spec sC7 (some 9)
  have hb := scanner_set_camera_spec sC7i (some 9)
  exact ⟨hb.1 (Or.inr rfl), (ha.2 (Or.inr rfl) rfl).1, (ha.2 (Or.inr rfl) rfl).2.1,
    ((ha.2 (Or.inr rfl) rfl).2.2.1 rfl 9 rfl).1,
    ((ha.2 (Or.inr rfl) rfl).2.2.1 rfl 9 rfl).2.1,
    ((ha.2 (Or.inr rfl) rfl).2.2.1 rfl 9 rfl).2.2,
    ((ha.2 (Or.inr rfl) rfl).2.2.2 rfl).1,
    ((ha.2 (Or.inr rfl) rfl).2.2.2 rfl).2 5 rfl⟩

/-- Claim C8: a visibility change to hidden while `active` with
`backgroundScan = false` immediately deactivates — exactly one `inactive`
event is emitted, the session is dropped and the camera stopped; with
`backgroundScan = true` no transition occurs (only the visibility state
changes).  A visibility change to visible never transitions synchronously:
it only queues a deferred activate task; when that task later runs it
performs the activate only if legal in the current state (otherwise it just
dequeues).  Entry into `active` is vetoed — the activate returns with no
state change and no events — while the page is not visible and background
scanning is disabled. -/
theorem scanner_visibility (s : ScannerS) :
    (s.current = .active → s.backgroundScan = false → s.pending = false →
      (visChange false s).2 = false ∧
      (visChange false s).1.current = .inactive ∧
      (visChange false s).1.events = .inactive :: s.events ∧
      (visChange false s).1.scan = false ∧
      (∀ c, s.camera = some c → (visChange false s).1.camStops = c :: s.camStops)) ∧
    (s.backgroundScan = true →
      visChange false s = ({ s with visible := false }, false)) ∧
    (visChange true s = ({ s with visible := true, visTasks := s.visTasks + 1 }, false)) ∧
    (canActivate s = false → ∀ n, s.visTasks = n + 1 →
      runVisTask s = ({ s with visTasks := n }, false)) ∧
    (canActivate s = true → ∀ n, s.visTasks = n + 1 →
      runVisTask s = fsmActivate none { s with visTasks := n }) ∧
    (canActivate s = true → s.visible = false → s.backgroundScan = false →
      fsmActivate none s = (s, false)) := by
  obtain ⟨cur, pend, cam0, scn, bg, vis, vt, evs, cst, csp⟩ := s
  cases pend <;> cases cur <;> cases vis <;> cases bg <;> cases cam0 <;>
    simp_all [visChange, canDeactivate, canActivate, fsmDeactivate, fsmActivate,
      runVisTask, disableScan, emitE, Option.orElse]

/-- An active scanner holding camera 4, page visible. -/
def sC8 : ScannerS :=
  { current := .active, pending := false, camera := some 4, scan := true,
    backgroundScan := false, visible := true, visTasks := 0,
    events := [.active, .inactive], camStarts := [4], camStops := [] }

/-- The same scanner with background scanning enabled. -/
def sC8bg : ScannerS :=
  { sC8 with backgroundScan := true }

/-- An inactive scanner on a hidden page with one queued visible-task. -/
def sC8v : ScannerS :=
  { current := .inactive, pending := false, camera := some 4, scan := false,
    backgroundScan := false, visible := false, visTasks := 1,
    events := [.inactive], camStarts := [], camStops := [] }

/-- The active scanner with three queued visible-tasks. -/
def sC8t : ScannerS :=
  { sC8 with visTasks := 3 }

/-- Witness for C8: hidden while active emits exactly one `inactive` and
stops camera 4; hidden with background scanning changes only the visibility
state; visible only queues a task; a task delivered while activation is
illegal only dequeues; a task delivered while legal but hidden is vetoed
with no state change. -/
theorem scanner_visibility_witness :
    (visChange false sC8).1.current = .inactive ∧
    (visChange false sC8).1.events = .inactive :: sC8.events ∧
    (visChange false sC8).1.scan = false ∧
    (visChange false sC8).1.camStops = 4 :: sC8.camStops ∧
    visChange false sC8bg = ({ sC8bg with visible := false }, false) ∧
    visChange true sC8 = ({ sC8 with visible := true, visTasks := sC8.visTasks + 1 }, false) ∧
    runVisTask sC8t = ({ sC8t with visTasks := 2 }, false) ∧
    runVisTask sC8v = fsmActivate none { sC8v with visTasks := 0 } ∧
    fsmActivate none { sC8v with visTasks := 0 } = ({ sC8v with visTasks := 0 }, false) := by
  have hA := (scanner_visibility sC8).1 rfl rfl rfl
  exact ⟨hA.2.1, hA.2.2.1, hA.2.2.2.1, hA.2.2.2.2 4 rfl,
    (scanner_visibility sC8bg).2.1 rfl,
    (scanner_visibility sC8).2.2.1,
    (scanner_visibility sC8t).2.2.2.1 rfl 2 rfl,
    (scanner_visibility sC8v).2.2.2.2.1 rfl 0 rfl,
    (scanner_visibility { sC8v with visTasks := 0 }).2.2.2.2.2 rfl rfl rfl⟩
